import Mathlib

/-!
Verification of the Blockly date field (`src/core/field_date.js`).

The file embeds the field's logic shallowly:
* `GDate`, `fromIsoString`, `toIsoString` model the external `goog.date`
  calendar-date capability the validator delegates to (modelled from the
  spec's strict ISO 8601 calendar-date rules);
* `doClassValidation_` is `Blockly.FieldDate.prototype.doClassValidation_`;
* `FieldDate_construct` is the `Blockly.FieldDate` constructor, `fromJson`
  is `Blockly.FieldDate.fromJson`;
* `St` with `showEditor_`, `widgetDispose_`, `changeHandler`, `dispose` and
  the modelled `Blockly.WidgetDiv` operations form the overlay state
  machine, with `Reachable` its reachable-state predicate;
* `loadLanguage_` is `Blockly.FieldDate.loadLanguage_` over an explicit
  candidate enumeration and message catalog.
-/

namespace FieldDate

/-- A calendar date as held by the external date library (year, month 1-12,
day 1-31). -/
structure GDate where
  year : Nat
  month : Nat
  day : Nat
deriving DecidableEq

/-- Gregorian leap-year rule. -/
def isLeapYear (y : Nat) : Bool :=
  y % 4 = 0 && (y % 100 ≠ 0 || y % 400 = 0)

/-- Number of days of month `m` (1-12) in year `y`, Gregorian. -/
def daysInMonth (y m : Nat) : Nat :=
  if m = 2 then (if isLeapYear y then 29 else 28)
  else if m = 4 ∨ m = 6 ∨ m = 9 ∨ m = 11 then 30
  else 31

/-- Numeric value of a decimal digit character. -/
def digitVal (c : Char) : Nat := c.toNat - 48

/-- Left-pad a number below 100 to two digits. -/
def pad2 (n : Nat) : String :=
  if n < 10 then "0" ++ toString n else toString n

/-- Left-pad a number below 10000 to four digits. -/
def pad4 (n : Nat) : String :=
  if n < 10 then "000" ++ toString n
  else if n < 100 then "00" ++ toString n
  else if n < 1000 then "0" ++ toString n
  else toString n

/-- Modelled from the spec: `goog.date.Date.prototype.toIsoString(true)`
(the external date library, not part of `src/`) — canonical `YYYY-MM-DD`
serialization, zero-padded. -/
def toIsoString (d : GDate) : String :=
  pad4 d.year ++ "-" ++ pad2 d.month ++ "-" ++ pad2 d.day

/-- Modelled from the spec: `goog.date.Date.fromIsoString` (the external
date library, not part of `src/`) — parse a string under strict ISO 8601
calendar-date rules: 4-digit year, 2-digit month 01-12, 2-digit day valid
for that month and year, leap years respected; `none` on failure. -/
def fromIsoString (s : String) : Option GDate :=
  match s.toList with
  | [y1, y2, y3, y4, h1, m1, m2, h2, d1, d2] =>
    if y1.isDigit && y2.isDigit && y3.isDigit && y4.isDigit &&
       h1 == '-' && m1.isDigit && m2.isDigit && h2 == '-' &&
       d1.isDigit && d2.isDigit then
      let y := 1000 * digitVal y1 + 100 * digitVal y2 + 10 * digitVal y3 + digitVal y4
      let m := 10 * digitVal m1 + digitVal m2
      let d := 10 * digitVal d1 + digitVal d2
      if 1 ≤ m ∧ m ≤ 12 ∧ 1 ≤ d ∧ d ≤ daysInMonth y m then
        some ⟨y, m, d⟩
      else none
    else none
  | _ => none

/-- Truthiness test of the validator's argument: `null`/`undefined`
(here `none`) and the empty string are the falsy inputs. -/
def isFalsy (v : Option String) : Bool :=
  match v with
  | none => true
  | some s => s == ""

/-- `Blockly.FieldDate.prototype.doClassValidation_` (src lines 99-109):
falsy input gives `null`; otherwise parse, and reject unless the parsed
date re-serializes byte-for-byte to the input, in which case the input
itself is returned. -/
def doClassValidation_ (newValue : Option String) : Option String :=
  match newValue with
  | none => none
  | some s =>
    if s = "" then none
    else
      match fromIsoString s with
      | none => none
      | some date => if toIsoString date ≠ s then none else some s

/-- The field's stored state: current value plus the externally supplied
validator stored by the base-class constructor. -/
structure FieldState where
  value : String
  validator : Option (String → Option String)

/-- The `Blockly.FieldDate` constructor (src lines 52-58). The base
`Blockly.Field` constructor is not in `src/`; modelled from the spec: it
stores the (already substituted) value and the optional validator. The
`today` argument models the local clock read `new goog.date.Date()`. -/
def FieldDate_construct (today : GDate) (optValue : Option String)
    (optValidator : Option (String → Option String)) : FieldState :=
  let v := doClassValidation_ optValue
  let value :=
    match v with
    | none => toIsoString today
    | some s => if s = "" then toIsoString today else s
  { value := value, validator := optValidator }

/-- Association-list lookup modelling JS property access `options[k]`. -/
def lookupOpt (k : String) (opts : List (String × String)) : Option String :=
  (opts.find? (fun p => p.1 = k)).map (fun p => p.2)

/-- `Blockly.FieldDate.fromJson` (src lines 68-70): construct from a
configuration object, passing `options['date']` and no validator. -/
def fromJson (today : GDate) (options : List (String × String)) : FieldState :=
  FieldDate_construct today (lookupOpt "date" options) none

/-- Overlay-machine state: the tracked field's value, the widget div's
current owner (a field id, `none` when hidden), whether the div has
rendered content, the module-level `Blockly.FieldDate.changeEventKey_`
token, the set of live `goog.events` listener registrations, the
`Blockly.Events` group flag, and a fresh-key counter. -/
structure St where
  fieldValue : String
  widgetOwner : Option Nat
  containerContent : Bool
  changeEventKey_ : Option Nat
  liveListeners : List Nat
  eventGroup : Bool
  nextKey : Nat
deriving DecidableEq

/-- Modelled from the spec: `goog.events.unlistenByKey` (not in `src/`) —
remove the registration named by the token; safe if already removed. -/
def unlistenByKey (k : Nat) (s : St) : St :=
  { s with liveListeners := s.liveListeners.filter (fun x => x ≠ k) }

/-- `Blockly.FieldDate.widgetDispose_` (src lines 163-168): if a change
event key is stored, unlisten it; then clear the event group flag. The
stored key itself is not touched. -/
def widgetDispose_ (s : St) : St :=
  let s1 :=
    match s.changeEventKey_ with
    | some k => unlistenByKey k s
    | none => s
  { s1 with eventGroup := false }

/-- Modelled from the spec: `Blockly.WidgetDiv.hide` (not in `src/`) — if
an overlay is showing, run its dispose callback (here always
`widgetDispose_`), clear the container, and clear the owner. -/
def WidgetDiv_hide (s : St) : St :=
  match s.widgetOwner with
  | none => s
  | some _ =>
    let s1 := widgetDispose_ s
    { s1 with widgetOwner := none, containerContent := false }

/-- Modelled from the spec: `Blockly.WidgetDiv.hideIfOwner` (not in
`src/`) — hide only when the given field is the current owner. -/
def WidgetDiv_hideIfOwner (f : Nat) (s : St) : St :=
  if s.widgetOwner = some f then WidgetDiv_hide s else s

/-- Modelled from the spec: `Blockly.WidgetDiv.show` (not in `src/`) —
any prior overlay is closed first, then the caller becomes owner. -/
def WidgetDiv_show (f : Nat) (s : St) : St :=
  let s1 := WidgetDiv_hide s
  { s1 with widgetOwner := some f }

/-- Modelled from the spec: `Blockly.Field.prototype.setValue` (base
class, not in `src/`) — run class validation; abort on `null`, otherwise
store the validated value (a change notification fires only when the
value differs). -/
def setValue (v : String) (s : St) : St :=
  match doClassValidation_ (some v) with
  | none => s
  | some w => if s.fieldValue = w then s else { s with fieldValue := w }

/-- `Blockly.FieldDate.prototype.showEditor_` (src lines 115-140): show
the widget div (closing any prior overlay), render the picker into the
container, then register the change listener and store its key. -/
def showEditor_ (f : Nat) (s : St) : St :=
  let s1 := WidgetDiv_show f s
  let s2 := { s1 with containerContent := true }
  { s2 with
    liveListeners := s2.nextKey :: s2.liveListeners,
    changeEventKey_ := some s2.nextKey,
    nextKey := s2.nextKey + 1 }

/-- The date string the change listener computes from the emitted event
(src line 136): the emitted date serialized canonically, or the empty
string when the event carries no date. -/
def dateStr (e : Option GDate) : String :=
  match e with
  | some d => toIsoString d
  | none => ""

/-- The calendar change listener (src lines 135-139): compute the date
string, hide the widget div, then call `setValue` on the field. -/
def changeHandler (e : Option GDate) (s : St) : St :=
  setValue (dateStr e) (WidgetDiv_hide s)

/-- `Blockly.FieldDate.prototype.dispose` (src lines 88-91): hide the
widget div if this field owns it; the base-class disposal that follows
touches no overlay state. -/
def dispose (f : Nat) (s : St) : St :=
  WidgetDiv_hideIfOwner f s

/-- The state of a freshly constructed field whose value is `v`: no
overlay, empty container, no stored key, no live listeners. -/
def initSt (v : String) : St :=
  { fieldValue := v, widgetOwner := none, containerContent := false,
    changeEventKey_ := none, liveListeners := [], eventGroup := false,
    nextKey := 0 }

/-- States the overlay machine can reach: a fresh field, then any
interleaving of editor activations, calendar change events, field
disposals and external dismissals of the widget div. -/
inductive Reachable : St → Prop
  | init (v : String) : Reachable (initSt v)
  | activate (f : Nat) {s : St} : Reachable s → Reachable (showEditor_ f s)
  | changeEvt (e : Option GDate) {s : St} :
      Reachable s → Reachable (changeHandler e s)
  | disposeStep (f : Nat) {s : St} : Reachable s → Reachable (dispose f s)
  | dismiss {s : St} : Reachable s → Reachable (WidgetDiv_hide s)

/-- Peel a leading marker off a character list; the match fails unless
the marker is followed by at least one character, as `.+` requires. -/
def dropMarker : List Char → List Char → Option (List Char)
  | [], [] => none
  | [], rest => some rest
  | _ :: _, [] => none
  | p :: ps, c :: cs => if c = p then dropMarker ps cs else none

/-- Strip the `DateTimeSymbols_` table-name marker, as the regular
expression `^DateTimeSymbols_(.+)$` does (src line 176). -/
def extractLangSuffix (prop : String) : Option String :=
  (dropMarker "DateTimeSymbols_".toList prop.toList).map (fun cs => ⟨cs⟩)

/-- Replace the first underscore by a dot, as the JS string
`replace` with a string pattern does (src line 180). -/
def replaceFirstUnderscore : List Char → List Char
  | [] => []
  | c :: cs => if c = '_' then '.' :: cs else c :: replaceFirstUnderscore cs

/-- ASCII lowercasing of one character (the table names the scan sees are
ASCII identifiers). -/
def toLowerChar (c : Char) : Char :=
  match c with
  | 'A' => 'a' | 'B' => 'b' | 'C' => 'c' | 'D' => 'd' | 'E' => 'e'
  | 'F' => 'f' | 'G' => 'g' | 'H' => 'h' | 'I' => 'i' | 'J' => 'j'
  | 'K' => 'k' | 'L' => 'l' | 'M' => 'm' | 'N' => 'n' | 'O' => 'o'
  | 'P' => 'p' | 'Q' => 'q' | 'R' => 'r' | 'S' => 's' | 'T' => 't'
  | 'U' => 'u' | 'V' => 'v' | 'W' => 'w' | 'X' => 'x' | 'Y' => 'y'
  | 'Z' => 'z' | other => other

/-- Normalization of an extracted locale-code suffix (src line 180):
lowercase, then first underscore becomes a dot (e.g. `pt.br`). -/
def normalizeLang (suf : String) : String :=
  ⟨replaceFirstUnderscore (suf.toList.map toLowerChar)⟩

/-- Whether a candidate symbol-table name matches the message catalog
(src lines 178-181): its name carries a locale suffix whose normalized
code exists in the catalog. The catalog lookup `goog.getObjectByName`
over `Blockly.Msg` is modelled from the spec as membership in the list of
catalog keys. -/
def localeMatch (msg : List String) (prop : String) : Bool :=
  match extractLangSuffix prop with
  | some suf => decide (normalizeLang suf ∈ msg)
  | none => false

/-- `Blockly.FieldDate.loadLanguage_` (src lines 175-186): scan the
candidate table names in enumeration order; every matching candidate
overwrites the active table, so the last match wins; `current` is the
active table going in and is returned unchanged when nothing matches. -/
def loadLanguage_ (props : List String) (msg : List String)
    (current : String) : String :=
  props.foldl (fun acc prop => if localeMatch msg prop then prop else acc) current

/-- Shared invariant of the overlay machine: a closed overlay has no live
listener, and an open one has exactly the stored key live. -/
def overlayInv (s : St) : Prop :=
  (s.widgetOwner = none → s.liveListeners = []) ∧
  (∀ f, s.widgetOwner = some f →
    ∃ k, s.changeEventKey_ = some k ∧ s.liveListeners = [k])

/-- A concrete clock reading used to instantiate clock-dependent claims. -/
def sampleToday : GDate := ⟨2026, 10, 11⟩

example : doClassValidation_ (some "2020-02-30") = none := by decide
example : doClassValidation_ (some "2020-2-1") = none := by decide
example : doClassValidation_ (some "2020-02-29") = some "2020-02-29" := by decide
example : doClassValidation_ (some "2021-02-29") = none := by decide
example : doClassValidation_ (some "") = none := by decide
example : toIsoString ⟨2020, 2, 1⟩ = "2020-02-01" := by decide

/-- Anatomy of a successful validation: the result is the input itself,
the input is nonempty, and it parses to a date that re-serializes to the
input. -/
theorem validate_some_spec {s t : String}
    (h : doClassValidation_ (some s) = some t) :
    t = s ∧ s ≠ "" ∧ ∃ d, fromIsoString s = some d ∧ toIsoString d = s := by
  simp only [doClassValidation_] at h
  by_cases hs : s = ""
  · simp [hs] at h
  · rw [if_neg hs] at h
    cases hd : fromIsoString s with
    | none => rw [hd] at h; exact absurd h (by simp)
    | some d =>
      rw [hd] at h
      by_cases ht : toIsoString d ≠ s
      · simp [ht] at h
      · rw [not_ne_iff] at ht
        simp [ht] at h
        exact ⟨h.symm, hs, d, rfl, ht⟩

/-- C1: the validator returns `null` on falsy input, and on non-falsy
input it returns `null` exactly when parsing fails or the re-serialized
parse differs from the input; in particular `2020-02-30` and `2020-2-1`
are rejected. -/
theorem c1_validator_contract :
    (∀ v, isFalsy v = true → doClassValidation_ v = none) ∧
    (∀ s : String, isFalsy (some s) = false →
      (doClassValidation_ (some s) = none ↔
        fromIsoString s = none ∨
          ∃ d, fromIsoString s = some d ∧ toIsoString d ≠ s)) ∧
    doClassValidation_ (some "2020-02-30") = none ∧
    doClassValidation_ (some "2020-2-1") = none := by
  refine ⟨?_, ?_, by decide, by decide⟩
  · intro v hv
    cases v with
    | none => rfl
    | some s =>
      simp only [isFalsy, beq_iff_eq] at hv
      simp [doClassValidation_, hv]
  · intro s hs
    simp only [isFalsy, beq_eq_false_iff_ne, ne_eq] at hs
    simp only [doClassValidation_, if_neg hs]
    cases hd : fromIsoString s with
    | none => simp
    | some d =>
      by_cases ht : toIsoString d ≠ s
      · simp [ht]
      · rw [not_ne_iff] at ht
        simp [ht, hs]

/-- C1 witness: the contract applied at the concrete inputs `none` and
`"2020-02-31"`. -/
theorem c1_validator_contract_witness :
    doClassValidation_ none = none ∧
    (doClassValidation_ (some "2020-02-31") = none ↔
      fromIsoString "2020-02-31" = none ∨
        ∃ d, fromIsoString "2020-02-31" = some d ∧
          toIsoString d ≠ "2020-02-31") :=
  ⟨c1_validator_contract.1 none rfl,
   c1_validator_contract.2.1 "2020-02-31" (by decide)⟩

/-- C2: for every string, validation fails, or it is idempotent and its
result re-parses to a date whose canonical serialization is the result
itself. -/
theorem c2_idempotent_roundtrip (s : String) :
    doClassValidation_ (some s) = none ∨
      (doClassValidation_ (doClassValidation_ (some s)) =
         doClassValidation_ (some s) ∧
       ∃ t, doClassValidation_ (some s) = some t ∧
         (fromIsoString t).map toIsoString = some t) := by
  cases h : doClassValidation_ (some s) with
  | none => exact Or.inl rfl
  | some t =>
    right
    obtain ⟨hts, _, d, hd, hiso⟩ := validate_some_spec h
    subst hts
    refine ⟨?_, t, rfl, ?_⟩
    · rw [h]
    · rw [hd]
      simp [hiso]

/-- C10: whenever validation succeeds, the returned string is the input
itself — the validator is the identity on the set it accepts. -/
theorem c10_accepts_identically (s t : String)
    (h : doClassValidation_ (some s) = some t) : t = s :=
  (validate_some_spec h).1

/-- C10 witness: the identity law applied at the accepted input
`2020-02-29`. -/
theorem c10_accepts_identically_witness :
    doClassValidation_ (some "2020-02-29") = some "2020-02-29" ∧
    ("2020-02-29" : String) = "2020-02-29" :=
  ⟨by decide, by rw [c10_accepts_identically "2020-02-29" "2020-02-29" (by decide)]⟩

/-- C3: an initial value rejected by validation (including no value at
all, or `2024-13-40`) makes the constructor substitute today's canonical
date; a value that validation accepts is stored verbatim, as with
`2024-03-01`. -/
theorem c3_constructor_value (today : GDate) :
    (∀ v, doClassValidation_ v = none →
      (FieldDate_construct today v none).value = toIsoString today) ∧
    (FieldDate_construct today none none).value = toIsoString today ∧
    (FieldDate_construct today (some "2024-13-40") none).value =
      toIsoString today ∧
    (∀ s, doClassValidation_ (some s) = some s →
      (FieldDate_construct today (some s) none).value = s) ∧
    (FieldDate_construct today (some "2024-03-01") none).value =
      "2024-03-01" := by
  have h40 : doClassValidation_ (some "2024-13-40") = none := by decide
  have h03 : doClassValidation_ (some "2024-03-01") = some "2024-03-01" := by
    decide
  refine ⟨?_, rfl, ?_, ?_, ?_⟩
  · intro v hv
    simp [FieldDate_construct, hv]
  · simp [FieldDate_construct, h40]
  · intro s hs
    have hne := (validate_some_spec hs).2.1
    simp [FieldDate_construct, hs, hne]
  · simp [FieldDate_construct, h03]

/-- C3 witness: the constructor applied with the concrete clock reading
`sampleToday` and the rejected initial value `"nonsense"`. -/
theorem c3_constructor_value_witness :
    (FieldDate_construct sampleToday (some "nonsense") none).value =
      toIsoString sampleToday :=
  (c3_constructor_value sampleToday).1 (some "nonsense") (by decide)

/-- C9: `fromJson` installs no validator, uses exactly the string stored
under the `date` key as the initial value, and ignores every other key:
two configurations agreeing on `date` construct the same field. -/
theorem c9_fromJson_config (today : GDate)
    (options : List (String × String)) :
    (fromJson today options).validator = none ∧
    fromJson today options =
      FieldDate_construct today (lookupOpt "date" options) none ∧
    (∀ others, lookupOpt "date" others = lookupOpt "date" options →
      fromJson today others = fromJson today options) := by
  refine ⟨rfl, rfl, ?_⟩
  intro others h
  simp [fromJson, h]

/-- C9 witness: a configuration with an extra unrecognized key constructs
the same field as one holding only the `date` key. -/
theorem c9_fromJson_config_witness :
    fromJson sampleToday [("date", "2024-03-01")] =
      fromJson sampleToday [("date", "2024-03-01"), ("tooltip", "x")] :=
  (c9_fromJson_config sampleToday
    [("date", "2024-03-01"), ("tooltip", "x")]).2.2
    [("date", "2024-03-01")] (by decide)

theorem widgetDispose_owner (s : St) :
    (widgetDispose_ s).widgetOwner = s.widgetOwner := by
  cases h : s.changeEventKey_ <;> simp [widgetDispose_, unlistenByKey, h]

theorem widgetDispose_key (s : St) :
    (widgetDispose_ s).changeEventKey_ = s.changeEventKey_ := by
  cases h : s.changeEventKey_ <;> simp [widgetDispose_, unlistenByKey, h]

theorem widgetDispose_nextKey (s : St) :
    (widgetDispose_ s).nextKey = s.nextKey := by
  cases h : s.changeEventKey_ <;> simp [widgetDispose_, unlistenByKey, h]

theorem widgetDispose_fieldValue (s : St) :
    (widgetDispose_ s).fieldValue = s.fieldValue := by
  cases h : s.changeEventKey_ <;> simp [widgetDispose_, unlistenByKey, h]

theorem widgetDispose_live_of_key {s : St} {k : Nat}
    (h : s.changeEventKey_ = some k) :
    (widgetDispose_ s).liveListeners =
      s.liveListeners.filter (fun x => x ≠ k) := by
  simp [widgetDispose_, unlistenByKey, h]

theorem hide_owner (s : St) : (WidgetDiv_hide s).widgetOwner = none := by
  cases h : s.widgetOwner <;> simp [WidgetDiv_hide, h]

theorem hide_fieldValue (s : St) :
    (WidgetDiv_hide s).fieldValue = s.fieldValue := by
  cases h : s.widgetOwner <;>
    simp [WidgetDiv_hide, h, widgetDispose_fieldValue]

theorem hide_nextKey (s : St) : (WidgetDiv_hide s).nextKey = s.nextKey := by
  cases h : s.widgetOwner <;> simp [WidgetDiv_hide, h, widgetDispose_nextKey]

theorem hide_live_of_inv {s : St} (hs : overlayInv s) :
    (WidgetDiv_hide s).liveListeners = [] := by
  cases h : s.widgetOwner with
  | none => simp [WidgetDiv_hide, h, hs.1 h]
  | some f =>
    obtain ⟨k, hk, hl⟩ := hs.2 f h
    simp [WidgetDiv_hide, h, widgetDispose_, unlistenByKey, hk, hl]

theorem setValue_owner (v : String) (s : St) :
    (setValue v s).widgetOwner = s.widgetOwner := by
  cases h : doClassValidation_ (some v) with
  | none => simp [setValue, h]
  | some w => by_cases hv : s.fieldValue = w <;> simp [setValue, h, hv]

theorem setValue_live (v : String) (s : St) :
    (setValue v s).liveListeners = s.liveListeners := by
  cases h : doClassValidation_ (some v) with
  | none => simp [setValue, h]
  | some w => by_cases hv : s.fieldValue = w <;> simp [setValue, h, hv]

theorem setValue_key (v : String) (s : St) :
    (setValue v s).changeEventKey_ = s.changeEventKey_ := by
  cases h : doClassValidation_ (some v) with
  | none => simp [setValue, h]
  | some w => by_cases hv : s.fieldValue = w <;> simp [setValue, h, hv]

theorem setValue_value_none {v : String} {s : St}
    (h : doClassValidation_ (some v) = none) :
    (setValue v s).fieldValue = s.fieldValue := by
  simp [setValue, h]

theorem setValue_value_some {v w : String} {s : St}
    (h : doClassValidation_ (some v) = some w) :
    (setValue v s).fieldValue = w := by
  by_cases hv : s.fieldValue = w <;> simp [setValue, h, hv]

theorem showEditor_owner (f : Nat) (s : St) :
    (showEditor_ f s).widgetOwner = some f := rfl

theorem showEditor_key (f : Nat) (s : St) :
    (showEditor_ f s).changeEventKey_ = some s.nextKey := by
  simp [showEditor_, WidgetDiv_show, hide_nextKey]

theorem showEditor_live (f : Nat) (s : St) :
    (showEditor_ f s).liveListeners =
      s.nextKey :: (WidgetDiv_hide s).liveListeners := by
  simp [showEditor_, WidgetDiv_show, hide_nextKey]

theorem overlayInv_hide {s : St} (hs : overlayInv s) :
    overlayInv (WidgetDiv_hide s) := by
  refine ⟨fun _ => hide_live_of_inv hs, fun f hf => ?_⟩
  rw [hide_owner] at hf
  exact absurd hf (by simp)

theorem overlayInv_showEditor {s : St} (hs : overlayInv s) (f : Nat) :
    overlayInv (showEditor_ f s) := by
  constructor
  · intro h
    rw [showEditor_owner] at h
    exact absurd h (by simp)
  · intro g _
    exact ⟨s.nextKey, showEditor_key f s,
      by rw [showEditor_live, hide_live_of_inv hs]⟩

theorem overlayInv_setValue {s : St} (hs : overlayInv s) (v : String) :
    overlayInv (setValue v s) := by
  constructor
  · intro h
    rw [setValue_owner] at h
    rw [setValue_live]
    exact hs.1 h
  · intro g hg
    rw [setValue_owner] at hg
    rw [setValue_key, setValue_live]
    exact hs.2 g hg

theorem reachable_overlayInv {s : St} (h : Reachable s) : overlayInv s := by
  induction h with
  | init v => exact ⟨fun _ => rfl, fun f hf => by simp [initSt] at hf⟩
  | activate f _ ih => exact overlayInv_showEditor ih f
  | changeEvt e _ ih =>
    exact overlayInv_setValue (overlayInv_hide ih) _
  | disposeStep f _ ih =>
    simp only [dispose, WidgetDiv_hideIfOwner]
    split
    · exact overlayInv_hide ih
    · exact ih
  | dismiss _ ih => exact overlayInv_hide ih

/-- C4: on a calendar change event the handler computes the new date
string, hides the overlay, and only then calls `setValue`: the handler is
exactly `setValue` applied to the already-hidden state, so the overlay is
closed at that point and stays closed; the final value is the validated
date string, or unchanged when validation rejects it. -/
theorem c4_change_event (s : St) (e : Option GDate) :
    (WidgetDiv_hide s).widgetOwner = none ∧
    changeHandler e s = setValue (dateStr e) (WidgetDiv_hide s) ∧
    (changeHandler e s).widgetOwner = none ∧
    (doClassValidation_ (some (dateStr e)) = none →
      (changeHandler e s).fieldValue = s.fieldValue) ∧
    (∀ w, doClassValidation_ (some (dateStr e)) = some w →
      (changeHandler e s).fieldValue = w) := by
  refine ⟨hide_owner s, rfl, ?_, ?_, ?_⟩
  · show (setValue (dateStr e) (WidgetDiv_hide s)).widgetOwner = none
    rw [setValue_owner, hide_owner]
  · intro h
    show (setValue (dateStr e) (WidgetDiv_hide s)).fieldValue = s.fieldValue
    rw [setValue_value_none h, hide_fieldValue]
  · intro w h
    exact setValue_value_some h

/-- C4 witness: a change event carrying 2020-02-29 on an open editor sets
the field to that date. -/
theorem c4_change_event_witness :
    (changeHandler (some ⟨2020, 2, 29⟩)
      (showEditor_ 0 (initSt "2020-01-01"))).fieldValue = "2020-02-29" :=
  (c4_change_event (showEditor_ 0 (initSt "2020-01-01"))
    (some ⟨2020, 2, 29⟩)).2.2.2.2 "2020-02-29" (by decide)

theorem filter_ne_idem (l : List Nat) (k : Nat) :
    (l.filter (fun x => x ≠ k)).filter (fun x => x ≠ k) =
      l.filter (fun x => x ≠ k) := by
  induction l with
  | nil => rfl
  | cons a l ih => by_cases h : a = k <;> simp [h, ih]

/-- C5 counterexample: closing the overlay opened from a fresh field
leaves the stored change-event key in place — it is not cleared. -/
theorem c5_counterexample :
    ¬ (widgetDispose_ (showEditor_ 0 (initSt "2020-01-01"))).changeEventKey_
        = none := by decide

/-- C5 (amended): the widget-dispose path unsubscribes the stored token,
unsubscription and the whole dispose path are idempotent, and the
grouped-events flag is cleared; however the stored token is left in
place, not cleared. -/
theorem c5_close_unsubscribes (s : St) :
    (∀ k, s.changeEventKey_ = some k →
      k ∉ (widgetDispose_ s).liveListeners) ∧
    (∀ k, unlistenByKey k (unlistenByKey k s) = unlistenByKey k s) ∧
    widgetDispose_ (widgetDispose_ s) = widgetDispose_ s ∧
    (widgetDispose_ s).eventGroup = false ∧
    (widgetDispose_ s).changeEventKey_ = s.changeEventKey_ := by
  refine ⟨?_, ?_, ?_, ?_, widgetDispose_key s⟩
  · intro k hk
    rw [widgetDispose_live_of_key hk]
    simp [List.mem_filter]
  · intro k
    simp [unlistenByKey, filter_ne_idem]
  · cases h : s.changeEventKey_ with
    | none => simp [widgetDispose_, h]
    | some k => simp [widgetDispose_, unlistenByKey, h, filter_ne_idem]
  · cases h : s.changeEventKey_ <;> simp [widgetDispose_, h]

/-- C5 witness: the stored key of a fresh open editor is no longer live
after widget disposal. -/
theorem c5_close_unsubscribes_witness :
    0 ∉ (widgetDispose_ (showEditor_ 0 (initSt "x"))).liveListeners :=
  (c5_close_unsubscribes (showEditor_ 0 (initSt "x"))).1 0 (by decide)

/-- C6: closing or disposing when the field is not the overlay owner
changes nothing (and, being a total function, raises no error), and field
disposal is idempotent. -/
theorem c6_nonowner_noop (s : St) (f : Nat) :
    (s.widgetOwner ≠ some f →
      WidgetDiv_hideIfOwner f s = s ∧ dispose f s = s) ∧
    dispose f (dispose f s) = dispose f s := by
  have key : ∀ t : St, t.widgetOwner ≠ some f → dispose f t = t := by
    intro t ht
    simp only [dispose, WidgetDiv_hideIfOwner, if_neg ht]
  constructor
  · intro h
    exact ⟨key s h, key s h⟩
  · by_cases h : s.widgetOwner = some f
    · apply key
      simp only [dispose, WidgetDiv_hideIfOwner, if_pos h, hide_owner]
      simp
    · rw [key s h]
      exact key s h

/-- C6 witness: disposing a field that does not own the open overlay
leaves the state untouched. -/
theorem c6_nonowner_noop_witness :
    dispose 5 (showEditor_ 0 (initSt "x")) = showEditor_ 0 (initSt "x") :=
  ((c6_nonowner_noop (showEditor_ 0 (initSt "x")) 5).1 (by decide)).2

/-- C8 counterexample: after a change event closes the overlay of a
freshly activated field, the overlay is closed yet the stored
subscription token is still held, so "open iff a token is held" fails at
this reachable state. -/
theorem c8_counterexample :
    Reachable (changeHandler none (showEditor_ 0 (initSt "2020-01-01"))) ∧
    ¬ ((changeHandler none
          (showEditor_ 0 (initSt "2020-01-01"))).widgetOwner ≠ none ↔
        (changeHandler none
          (showEditor_ 0 (initSt "2020-01-01"))).changeEventKey_ ≠ none) :=
  ⟨Reachable.changeEvt none (Reachable.activate 0 (Reachable.init "2020-01-01")),
   by decide⟩

/-- C8 (amended): at every reachable state at most one subscription
registration is live, and the overlay is open exactly when a live
registration exists (the stored token field, by contrast, may keep a
stale token after close); a second activation without an intervening
close leaves exactly one live registration. -/
theorem c8_overlay_tokens (s : St) (hs : Reachable s) :
    s.liveListeners.length ≤ 1 ∧
    (s.widgetOwner ≠ none ↔ s.liveListeners ≠ []) ∧
    (∀ f g, (showEditor_ g (showEditor_ f s)).liveListeners.length = 1) := by
  have inv := reachable_overlayInv hs
  refine ⟨?_, ?_, ?_⟩
  · cases h : s.widgetOwner with
    | none => rw [inv.1 h]; simp
    | some f =>
      obtain ⟨k, _, hl⟩ := inv.2 f h
      rw [hl]
      simp
  · cases h : s.widgetOwner with
    | none => rw [inv.1 h]; simp [h]
    | some f =>
      obtain ⟨k, _, hl⟩ := inv.2 f h
      rw [hl]
      simp [h]
  · intro f g
    have inv1 := overlayInv_showEditor inv f
    rw [showEditor_live, hide_live_of_inv inv1]
    rfl

/-- C8 witness: the invariant applied at the freshly constructed field,
and the double-activation clause instantiated there. -/
theorem c8_overlay_tokens_witness :
    (showEditor_ 1 (showEditor_ 0 (initSt "2020-01-01"))).liveListeners.length
      = 1 :=
  (c8_overlay_tokens (initSt "2020-01-01")
    (Reachable.init "2020-01-01")).2.2 0 1

theorem getLastD_cons {α : Type} :
    ∀ (l : List α) (a c : α), ((a :: l).getLast?).getD c = (l.getLast?).getD a := by
  intro l
  induction l with
  | nil => intro a c; rfl
  | cons b bs ih =>
    intro a c
    rw [List.getLast?_cons_cons, ih b c, ih b a]

theorem loadLanguage_eq_lastMatch (msg : List String) :
    ∀ (props : List String) (cur : String),
      loadLanguage_ props msg cur =
        ((props.filter (localeMatch msg)).getLast?).getD cur := by
  intro props
  induction props with
  | nil => intro cur; rfl
  | cons p ps ih =>
    intro cur
    simp only [loadLanguage_, List.foldl_cons] at ih ⊢
    rw [ih]
    by_cases h : localeMatch msg p
    · simp only [h, if_true, List.filter_cons_of_pos h, getLastD_cons]
    · have h2 : localeMatch msg p = false := by simpa using h
      simp [h2, List.filter_cons]

/-- C7: the locale scan visits every candidate; a candidate matches when
its extracted suffix, lowercased with its first underscore turned into a
dot, is a catalog key; the last matching candidate in enumeration order
becomes the active table, and with no match the active table is
unchanged. -/
theorem c7_locale_resolution (props msg : List String) (current : String) :
    loadLanguage_ props msg current =
      ((props.filter (localeMatch msg)).getLast?).getD current ∧
    ((∀ p ∈ props, localeMatch msg p = false) →
      loadLanguage_ props msg current = current) ∧
    (∀ p, localeMatch msg p = true →
      loadLanguage_ (props ++ [p]) msg current = p) := by
  refine ⟨loadLanguage_eq_lastMatch msg props current, ?_, ?_⟩
  · intro h
    rw [loadLanguage_eq_lastMatch msg props current]
    have : props.filter (localeMatch msg) = [] := by
      rw [List.filter_eq_nil_iff]
      intro a ha
      simp [h a ha]
    rw [this]
    rfl
  · intro p hp
    simp [loadLanguage_, List.foldl_append, hp]

/-- C7 witness: with catalog key `pt.br`, the candidate
`DateTimeSymbols_pt_BR` appended after a non-matching candidate becomes
the active table. -/
theorem c7_locale_resolution_witness :
    loadLanguage_ (["DateTimeSymbols_en"] ++ ["DateTimeSymbols_pt_BR"])
      ["pt.br"] "DateTimeSymbols" = "DateTimeSymbols_pt_BR" :=
  (c7_locale_resolution ["DateTimeSymbols_en"] ["pt.br"]
    "DateTimeSymbols").2.2 "DateTimeSymbols_pt_BR" (by decide)

end FieldDate
